import Mathlib

/-!
Shallow embedding of the BackgroundManager plugin's image-store and
rotation subsystem (src/unnamed/part_000, src/BackgroundLibrary.plugin.js),
with theorems checking the specification's claims about it.

Object URLs (browser blob handles) are modelled as abstract `Nat` tokens,
blobs as byte lists with a MIME string, and the IndexedDB-persisted
collection as a `List ImageItem` in key order.
-/

namespace BackgroundManager

/-- A binary blob: raw bytes plus the MIME type recorded at construction,
as in `new Blob([file.data], { type: getImageType(file.data) })`. -/
structure Blob where
  data : List Nat
  type : String
  deriving DecidableEq, Repr

/-- One stored background image as kept in the `images` object store:
`{ image, selected, src, id }` (part_000 line 300). `src` is the transient
object-URL handle (`null` modelled as `none`). -/
structure ImageItem where
  id : Nat
  image : Blob
  selected : Bool
  src : Option Nat
  deriving DecidableEq, Repr

/-- JavaScript `list.map((e, i) => f(i, e))` / index-carrying `forEach`,
with the position counter made explicit. -/
def mapWithIndex (f : Nat → ImageItem → ImageItem) : Nat → List ImageItem → List ImageItem
  | _, [] => []
  | i, e :: es => f i e :: mapWithIndex f (i + 1) es

/-- The id renumbering performed by `saveItems` before writing to the store:
`newItems.forEach((e, i) => { e.id = i + 1; ... })` (part_000 lines 127-134).
The IndexedDB put/delete mechanics are not modelled; the persisted state is
this renumbered sequence. -/
def saveItems (newItems : List ImageItem) : List ImageItem :=
  mapWithIndex (fun i e => { e with id := i + 1 }) 0 newItems

/-- `handleFileTransfer` (part_000 line 300): append a new item with
`selected: false`, a fresh object URL, and `id = prev.length + 1`. -/
def handleFileTransfer (blob : Blob) (handle : Nat) (prev : List ImageItem) : List ImageItem :=
  prev ++ [{ image := blob, selected := false, src := some handle, id := prev.length + 1 }]

/-- `handleDelete` (part_000 lines 426-430):
`prev.filter(e => e.id !== index).map((e, i) => { e.id = i + 1; return e; })`. -/
def handleDelete (index : Nat) (prev : List ImageItem) : List ImageItem :=
  mapWithIndex (fun i e => { e with id := i + 1 }) 0 (prev.filter fun e => e.id != index)

/-- `handleSelect` (part_000 lines 431-438):
`prev.forEach(e => { e.selected = e.id === index; })`. -/
def handleSelect (index : Nat) (prev : List ImageItem) : List ImageItem :=
  prev.map fun e => { e with selected := e.id == index }

/-- `handleRemove` (part_000 lines 439-448): clear every `selected` flag. -/
def handleRemove (prev : List ImageItem) : List ImageItem :=
  prev.map fun e => { e with selected := false }

/-- Accumulator pass for `storedImages.reduce((p, c, i) => c.selected ? i : p, null)`
(part_000 line 3703): the index of the last selected item, or `null`. -/
def currentSelectedIndexGo (acc : Option Nat) (i : Nat) : List ImageItem → Option Nat
  | [] => acc
  | e :: es => currentSelectedIndexGo (if e.selected then some i else acc) (i + 1) es

/-- Index of the currently selected item (`null` when none is selected). -/
def currentSelectedIndex (items : List ImageItem) : Option Nat :=
  currentSelectedIndexGo none 0 items

/-- JavaScript `a || b` on numbers (no NaN arises here): `b` if `a` is `0`,
otherwise `a`. -/
def jsOr (a b : Int) : Int :=
  if a = 0 then b else a

/-- JavaScript `currentIndex + 1` where `currentIndex` may be `null`:
`null` coerces to `0`, so `null + 1` evaluates to `1`. -/
def jsNullAdd1 : Option Nat → Int
  | none => 0 + 1
  | some c => (c : Int) + 1

/-- The target position of the sequential slideshow branch (part_000 line 3728):
`((currentIndex + 1) || Math.floor(Math.random() * len)) % len`, with `r` the
value drawn by `Math.floor(Math.random() * len)`. -/
def jsSeqTarget (currentIndex : Option Nat) (r : Nat) (len : Nat) : Int :=
  jsOr (jsNullAdd1 currentIndex) (r : Int) % (len : Int)

/-- Per-item body of the shuffle branch of the slideshow tick
(part_000 lines 3708-3720): revoke and clear `src` when the manager grid is
not mounted, clear `selected`, then mark the item whose `id - 1` equals the
drawn index `x`, recreating its `src` when not mounted
(`fresh + i` stands for the fresh object URL). -/
def tickShuffleItem (mounted : Bool) (x : Int) (fresh : Nat) (i : Nat) (e : ImageItem) :
    ImageItem :=
  let e1 := if mounted then e else { e with src := none }
  let e2 := { e1 with selected := false }
  if (e.id : Int) - 1 = x then
    let e3 := { e2 with selected := true }
    if mounted then e3 else { e3 with src := some (fresh + i) }
  else e2

/-- Per-item body of the sequential branch of the slideshow tick
(part_000 lines 3722-3734): as in the shuffle branch but the item at
position `target` is marked. -/
def tickSeqItem (mounted : Bool) (target : Int) (fresh : Nat) (i : Nat) (e : ImageItem) :
    ImageItem :=
  let e1 := if mounted then e else { e with src := none }
  let e2 := { e1 with selected := false }
  if (i : Int) = target then
    let e3 := { e2 with selected := true }
    if mounted then e3 else { e3 with src := some (fresh + i) }
  else e2

/-- Observable outcome of one slideshow tick: the new item list, the `src`
values passed to `viewTransition.setImage`, and the object URLs revoked and
created during the pass. -/
structure TickResult where
  items : List ImageItem
  updates : List (Option Nat)
  revoked : List Nat
  created : List Nat
  deriving DecidableEq, Repr

/-- Outcome of one branch of the tick body: the marked item (the selected one)
is the one whose `src` is handed to `viewTransition.setImage`; when the grid
is not mounted every existing `src` is revoked and the marked item's `src` is
recreated. -/
def tickBranchResult (g : Nat → ImageItem → ImageItem) (mounted : Bool)
    (items : List ImageItem) : TickResult :=
  let newItems := mapWithIndex g 0 items
  { items := newItems
    updates := (newItems.filter fun e => e.selected).map fun e => e.src
    revoked := if mounted then [] else items.filterMap fun e => e.src
    created := if mounted then [] else (newItems.filter fun e => e.selected).filterMap fun e => e.src }

/-- One slideshow tick over the stored items (part_000 lines 3701-3736):
shuffle only when configured and more than 2 items are stored, otherwise the
sequential advance guarded by a non-empty list; with no stored items nothing
happens. `x` is the outcome of the shuffle retry loop, `r` the random draw of
the sequential branch, `fresh` the next object-URL token. -/
def slideshowTick (shuffle mounted : Bool) (x r fresh : Nat) (storedImages : List ImageItem) :
    TickResult :=
  let currentIndex := currentSelectedIndex storedImages
  if shuffle ∧ 2 < storedImages.length then
    tickBranchResult (tickShuffleItem mounted (x : Int) fresh) mounted storedImages
  else if storedImages.length ≠ 0 then
    tickBranchResult (tickSeqItem mounted (jsSeqTarget currentIndex r storedImages.length) fresh)
      mounted storedImages
  else
    { items := storedImages, updates := [], revoked := [], created := [] }

/-- One mutating operation on the image store, as invoked by the UI layer or
the slideshow timer. -/
inductive StoreOp
  | add (blob : Blob) (handle : Nat)
  | remove (index : Nat)
  | select (index : Nat)
  | removeBg
  | tick (shuffle mounted : Bool) (x r fresh : Nat)
  deriving DecidableEq, Repr

/-- Apply one operation to the in-memory item list (before its save). -/
def applyOp (items : List ImageItem) : StoreOp → List ImageItem
  | .add blob h => handleFileTransfer blob h items
  | .remove i => handleDelete i items
  | .select i => handleSelect i items
  | .removeBg => handleRemove items
  | .tick sh m x r f => (slideshowTick sh m x r f items).items

/-- A completed operation together with its save: every mutation is followed
by `saveItems`, which renumbers ids in place. -/
def persistOp (items : List ImageItem) (op : StoreOp) : List ImageItem :=
  saveItems (applyOp items op)

/-- Run a sequence of completed operations from a starting store state. -/
def runOps (items : List ImageItem) (ops : List StoreOp) : List ImageItem :=
  ops.foldl persistOp items

/-- Number of items whose `selected` flag is `true`. -/
def selectedCount (items : List ImageItem) : Nat :=
  items.countP fun e => e.selected

/-- Ids are dense, 1-based and order-stable: the id sequence is `[1, …, n]`. -/
abbrev DenseIds (items : List ImageItem) : Prop :=
  items.map (fun e => e.id) = List.range' 1 items.length

/-- One signature check of `getImageType` (part_000 line 1719):
`pattern.every((e, i) => e === null || e === buffer[i])`, expressed as a
recursion that walks buffer and pattern together; a wildcard (`null`) byte
passes even past the end of the buffer, while a concrete pattern byte fails
there because `buffer[i]` is `undefined`. -/
def matchesPattern (buffer : List Nat) : List (Option Nat) → Bool
  | [] => true
  | p :: ps =>
    match p, buffer with
    | none, [] => matchesPattern [] ps
    | none, _ :: bs => matchesPattern bs ps
    | some _, [] => false
    | some v, b :: bs => b == v && matchesPattern bs ps

/-- The magic-byte signature table of `getImageType` (part_000 lines 1708-1717),
in source order; `null` wildcard bytes are `none`. -/
def mimeTypes : List (String × List (Option Nat)) :=
  [("image/png", [some 0x89, some 0x50, some 0x4E, some 0x47]),
   ("image/jpeg", [some 0xFF, some 0xD8, some 0xFF]),
   ("image/bmp", [some 0x42, some 0x4D]),
   ("image/gif", [some 0x47, some 0x49, some 0x46, some 0x38]),
   ("image/avif", [some 0x00, some 0x00, some 0x00, none, some 0x66, some 0x74, some 0x79,
      some 0x70, some 0x61, some 0x76, some 0x69, some 0x66]),
   ("image/webp", [some 0x52, some 0x49, some 0x46, some 0x46, none, none, none, none,
      some 0x57, some 0x45, some 0x42, some 0x50]),
   ("image/svg+xml", [some 0x3C, some 0x73, some 0x76, some 0x67]),
   ("image/x-icon", [some 0x00, some 0x00, some 0x01, some 0x00])]

/-- `getImageType` (part_000 lines 1707-1722): the MIME of the first matching
signature, or the empty string when no signature matches. -/
def getImageType (buffer : List Nat) : String :=
  match mimeTypes.find? fun mt => matchesPattern buffer mt.2 with
  | some mt => mt.1
  | none => ""

/-- The extension allow-list of `handleUpload` (part_000 line 618). Note that
`ico` is offered by the file picker (line 612) but absent here. -/
def acceptedExtensions : List String :=
  ["png", "jpg", "jpeg", "jpe", "jfif", "exif", "bmp", "dib", "rle", "gif", "avif", "webp", "svg"]

/-- JavaScript `String.prototype.split('.')` on the filename's characters:
maximal (possibly empty) runs between the dots. -/
def splitOnDot : List Char → List (List Char)
  | [] => [[]]
  | c :: cs =>
    if c = '.' then [] :: splitOnDot cs
    else
      match splitOnDot cs with
      | [] => [[c]]
      | g :: gs => (c :: g) :: gs

/-- `file.filename?.split('.').pop()?.toLowerCase()` (part_000 line 618). -/
def fileExtension (filename : String) : String :=
  ⟨((splitOnDot filename.data).getLast?.getD []).map Char.toLower⟩

/-- The acceptance test of `handleUpload` (part_000 line 618): the file is kept
exactly when its data is present and its filename extension is in the
allow-list; `none` models absent (`!file.data`) data. -/
def uploadAccepts (data : Option (List Nat)) (filename : String) : Bool :=
  data.isSome && acceptedExtensions.contains (fileExtension filename)

/-- Processing of one picked file by `handleUpload` (part_000 lines 617-630):
rejected files yield `none` (a warning toast in the source); accepted files
become an item whose blob records `getImageType(file.data)` as its MIME type,
with `handle` the fresh object URL and `i` the file's index in the batch. -/
def processFile (data : Option (List Nat)) (filename : String) (handle i : Nat) :
    Option ImageItem :=
  if uploadAccepts data filename then
    data.map fun d =>
      { image := { data := d, type := getImageType d }, selected := false,
        src := some handle, id := i + 1 }
  else none

/-- The timer period armed by `slideShowManager.start` (part_000 line 3737):
`Math.max(constants.settings.slideshow.interval ?? 3e5, 3e4)`, in ms. -/
def slideShowPeriod (interval : Option Nat) : Nat :=
  max (interval.getD 300000) 30000

/-- Events seen by the slideshow visibility logic: a timer tick, or the
document's `visibilitychange` to visible / to hidden. -/
inductive VisEvent
  | tick
  | setVisible
  | setHidden
  deriving DecidableEq, Repr

/-- The visibility-related state of `slideShowManager` (part_000 lines
3687-3699): whether the host document is hidden, and the
`triggeredWhileHidden` catch-up flag. -/
structure SlideshowVisState where
  hidden : Bool
  triggeredWhileHidden : Bool
  deriving DecidableEq, Repr

/-- A tick advances the background unless the document is hidden and the
catch-up advance was already consumed (part_000 lines 3697-3700). -/
def tickAdvances (s : SlideshowVisState) : Bool :=
  !(s.hidden && s.triggeredWhileHidden)

/-- State transition of `slideShowManager` on one event: an advancing tick
while hidden sets `triggeredWhileHidden`; `visibilitychange` to visible
clears it (part_000 lines 3690-3692); becoming hidden changes only the
visibility. -/
def visStep (s : SlideshowVisState) : VisEvent → SlideshowVisState
  | .tick =>
    if s.hidden && !s.triggeredWhileHidden then { s with triggeredWhileHidden := true } else s
  | .setVisible => { hidden := false, triggeredWhileHidden := false }
  | .setHidden => { s with hidden := true }

/-- Number of ticks in an event trace that advance the background image. -/
def countAdvances (s : SlideshowVisState) : List VisEvent → Nat
  | [] => 0
  | e :: es =>
    (if e = VisEvent.tick ∧ tickAdvances s then 1 else 0) + countAdvances (visStep s e) es

/-- State of the deferred theme-override update in `viewTransition.setImage`
(part_000 lines 3750, 3810-3821): `originalBackground` is true before the
first presentation call, and `pending` holds the `src` captured by the armed
`setTimeout` closure (`none` when no timer is armed). -/
structure OverrideState where
  originalBackground : Bool
  pending : Option Nat
  deriving DecidableEq, Repr

/-- Events of the deferred-override logic: a `setImage(src)` call, or the
armed timeout firing. -/
inductive OvEvent
  | call (src : Nat)
  | fire
  deriving DecidableEq, Repr

/-- One step of the override logic, returning the new state and the updates
delivered to the theme-override sink (`DOM.addStyle` with the given `src`).
On the first call the update is deferred by arming the timer; on later calls
it is applied immediately and the armed timer is left untouched (part_000
lines 3810-3821 contain no `clearTimeout`); a firing timer delivers the `src`
captured at arming time. -/
def ovStep (s : OverrideState) : OvEvent → OverrideState × List Nat
  | .call src =>
    if s.originalBackground then
      ({ originalBackground := false, pending := some src }, [])
    else
      (s, [src])
  | .fire =>
    match s.pending with
    | some src => ({ s with pending := none }, [src])
    | none => (s, [])

/-- All updates the theme-override sink receives along an event trace. -/
def ovRun (s : OverrideState) : List OvEvent → List Nat
  | [] => []
  | e :: es => ((ovStep s e).2) ++ ovRun (ovStep s e).1 es

/-- A small concrete blob for witness states. -/
def demoBlob : Blob :=
  { data := [0x89, 0x50, 0x4E, 0x47], type := "image/png" }

/-- Four stored items, ids 1 to 4, none selected. -/
def demoFourNone : List ImageItem :=
  [{ id := 1, image := demoBlob, selected := false, src := some 11 },
   { id := 2, image := demoBlob, selected := false, src := some 12 },
   { id := 3, image := demoBlob, selected := false, src := some 13 },
   { id := 4, image := demoBlob, selected := false, src := some 14 }]

/-- Four stored items, the one at 0-based index 1 selected. -/
def demoFourSel1 : List ImageItem :=
  [{ id := 1, image := demoBlob, selected := false, src := some 11 },
   { id := 2, image := demoBlob, selected := true, src := some 12 },
   { id := 3, image := demoBlob, selected := false, src := some 13 },
   { id := 4, image := demoBlob, selected := false, src := some 14 }]

/-- Four stored items, the one at 0-based index 3 selected. -/
def demoFourSel3 : List ImageItem :=
  [{ id := 1, image := demoBlob, selected := false, src := some 11 },
   { id := 2, image := demoBlob, selected := false, src := some 12 },
   { id := 3, image := demoBlob, selected := false, src := some 13 },
   { id := 4, image := demoBlob, selected := true, src := some 14 }]

/-- A starting store for the invariant witness: one item, selected. -/
def demoStore : List ImageItem :=
  [{ id := 1, image := demoBlob, selected := true, src := some 11 }]

/-- An operation sequence exercising every operation kind. -/
def demoOps : List StoreOp :=
  [StoreOp.add demoBlob 21, StoreOp.select 2, StoreOp.add demoBlob 22,
   StoreOp.tick true false 2 0 31, StoreOp.remove 1, StoreOp.tick false true 0 1 41,
   StoreOp.removeBg]

theorem length_mapWithIndex (f : Nat → ImageItem → ImageItem) :
    ∀ (l : List ImageItem) (k : Nat), (mapWithIndex f k l).length = l.length := by
  intro l
  induction l with
  | nil => intro k; rfl
  | cons e es ih => intro k; simp [mapWithIndex, ih]

theorem map_id_mapWithIndex_setId :
    ∀ (l : List ImageItem) (k : Nat),
      (mapWithIndex (fun i e => { e with id := i + 1 }) k l).map (fun e => e.id)
        = List.range' (k + 1) l.length := by
  intro l
  induction l with
  | nil => intro k; rfl
  | cons e es ih => intro k; simp [mapWithIndex, List.range'_succ, ih]

theorem selectedCount_mapWithIndex_of_indep (g : Nat → ImageItem → ImageItem)
    (p : ImageItem → Bool) (hg : ∀ i e, (g i e).selected = p e) :
    ∀ (l : List ImageItem) (k : Nat),
      selectedCount (mapWithIndex g k l) = l.countP p := by
  intro l
  induction l with
  | nil => intro k; rfl
  | cons e es ih =>
    intro k
    simp only [mapWithIndex, selectedCount, List.countP_cons, hg k e]
    have hes := ih (k + 1)
    simp only [selectedCount] at hes
    rw [hes]

theorem denseIds_saveItems (l : List ImageItem) : DenseIds (saveItems l) := by
  unfold DenseIds saveItems
  rw [map_id_mapWithIndex_setId, length_mapWithIndex]

theorem denseIds_nodup {l : List ImageItem} (h : DenseIds l) :
    (l.map fun e => e.id).Nodup := by
  rw [h]
  exact List.nodup_range' _ _

theorem countP_id_eq_le_one (l : List ImageItem) (v : Nat)
    (h : (l.map fun e => e.id).Nodup) :
    (l.countP fun e => e.id == v) ≤ 1 := by
  have hcount : (l.countP fun e => e.id == v) = (l.map fun e => e.id).count v := by
    rw [List.count, List.countP_map]
    rfl
  rw [hcount]
  exact List.nodup_iff_count_le_one.mp h v

theorem tickSeqItem_selected (m : Bool) (t : Int) (f i : Nat) (e : ImageItem) :
    (tickSeqItem m t f i e).selected = decide ((i : Int) = t) := by
  unfold tickSeqItem
  cases m <;> by_cases h : (i : Int) = t <;> simp [h]

theorem tickSeqItem_id (m : Bool) (t : Int) (f i : Nat) (e : ImageItem) :
    (tickSeqItem m t f i e).id = e.id := by
  unfold tickSeqItem
  cases m <;> by_cases h : (i : Int) = t <;> simp [h]

theorem tickShuffleItem_selected (m : Bool) (x : Int) (f i : Nat) (e : ImageItem) :
    (tickShuffleItem m x f i e).selected = decide ((e.id : Int) - 1 = x) := by
  unfold tickShuffleItem
  cases m <;> by_cases h : (e.id : Int) - 1 = x <;> simp [h]

theorem selectedCount_tickSeq_zero (m : Bool) (t : Int) (f : Nat) :
    ∀ (l : List ImageItem) (k : Nat), t < (k : Int) →
      selectedCount (mapWithIndex (tickSeqItem m t f) k l) = 0 := by
  intro l
  induction l with
  | nil => intro k _; rfl
  | cons e es ih =>
    intro k hk
    have hne : ¬ ((k : Int) = t) := by omega
    simp only [mapWithIndex, selectedCount, List.countP_cons, tickSeqItem_selected,
      decide_eq_true_eq, if_neg hne]
    have hes := ih (k + 1) (by push_cast; omega)
    simp only [selectedCount] at hes
    rw [hes]

theorem selectedCount_tickSeq_le_one (m : Bool) (t : Int) (f : Nat) :
    ∀ (l : List ImageItem) (k : Nat),
      selectedCount (mapWithIndex (tickSeqItem m t f) k l) ≤ 1 := by
  intro l
  induction l with
  | nil => intro k; simp [mapWithIndex, selectedCount]
  | cons e es ih =>
    intro k
    by_cases h : (k : Int) = t
    · simp only [mapWithIndex, selectedCount, List.countP_cons, tickSeqItem_selected,
        decide_eq_true_eq, if_pos h]
      have hes := selectedCount_tickSeq_zero m t f es (k + 1) (by push_cast; omega)
      simp only [selectedCount] at hes
      rw [hes]
    · simp only [mapWithIndex, selectedCount, List.countP_cons, tickSeqItem_selected,
        decide_eq_true_eq, if_neg h]
      have hes := ih (k + 1)
      simp only [selectedCount] at hes
      omega

theorem selectedCount_tickShuffle_le_one (m : Bool) (x f : Nat) (l : List ImageItem)
    (h : (l.map fun e => e.id).Nodup) :
    selectedCount (mapWithIndex (tickShuffleItem m (x : Int) f) 0 l) ≤ 1 := by
  rw [selectedCount_mapWithIndex_of_indep _ (fun e => decide ((e.id : Int) - 1 = (x : Int)))
    (fun i e => tickShuffleItem_selected m (x : Int) f i e) l 0]
  have hcong : (l.countP fun e => decide ((e.id : Int) - 1 = (x : Int)))
      = l.countP fun e => e.id == x + 1 := by
    refine List.countP_congr fun e _ => ?_
    constructor
    · intro he
      simp only [decide_eq_true_eq] at he
      have : e.id = x + 1 := by omega
      simpa using this
    · intro he
      simp only [beq_iff_eq] at he
      simp only [decide_eq_true_eq]
      omega
  rw [hcong]
  exact countP_id_eq_le_one l (x + 1) h

theorem selectedCount_persistOp (items : List ImageItem) (op : StoreOp) :
    selectedCount (persistOp items op) = selectedCount (applyOp items op) := by
  unfold persistOp saveItems
  rw [selectedCount_mapWithIndex_of_indep (fun i e => { e with id := i + 1 })
    (fun e => e.selected) (fun i e => rfl)]
  rfl

theorem selectedCount_handleSelect (index : Nat) (items : List ImageItem)
    (h : (items.map fun e => e.id).Nodup) :
    selectedCount (handleSelect index items) ≤ 1 := by
  have heq : selectedCount (handleSelect index items)
      = items.countP fun e => e.id == index := by
    simp [selectedCount, handleSelect, List.countP_map]
    rfl
  rw [heq]
  exact countP_id_eq_le_one items index h

theorem selectedCount_applyOp_le_one (items : List ImageItem) (op : StoreOp)
    (hWF : DenseIds items) (hsel : selectedCount items ≤ 1) :
    selectedCount (applyOp items op) ≤ 1 := by
  cases op with
  | add blob handle =>
    simp only [applyOp, handleFileTransfer, selectedCount, List.countP_append,
      List.countP_singleton]
    simp only [selectedCount] at hsel
    simp
    omega
  | remove index =>
    simp only [applyOp, handleDelete]
    rw [selectedCount_mapWithIndex_of_indep (fun i e => { e with id := i + 1 })
      (fun e => e.selected) (fun i e => rfl)]
    calc (items.filter fun e => e.id != index).countP (fun e => e.selected)
        ≤ items.countP fun e => e.selected := by
          rw [List.countP_filter]
          exact List.countP_mono_left fun e _ hb => by
            simp only [Bool.and_eq_true] at hb
            exact hb.1
      _ ≤ 1 := hsel
  | select index =>
    exact selectedCount_handleSelect index items (denseIds_nodup hWF)
  | removeBg =>
    simp only [applyOp, handleRemove, selectedCount, List.countP_map]
    have hzero : ((fun e => e.selected) ∘ fun (e : ImageItem) =>
        ({ id := e.id, image := e.image, selected := false, src := e.src } : ImageItem))
          = fun _ => false := rfl
    rw [hzero]
    simp
  | tick sh m x r f =>
    simp only [applyOp, slideshowTick]
    by_cases h1 : sh = true ∧ 2 < items.length
    · rw [if_pos h1]
      exact selectedCount_tickShuffle_le_one m x f items (denseIds_nodup hWF)
    · rw [if_neg h1]
      by_cases h2 : items.length ≠ 0
      · rw [if_pos h2]
        exact selectedCount_tickSeq_le_one m _ f items 0
      · rw [if_neg h2]
        exact hsel

theorem fields_mapWithIndex_setId :
    ∀ (l : List ImageItem) (k : Nat),
      (mapWithIndex (fun i e => { e with id := i + 1 }) k l).map
          (fun e => (e.image, e.selected, e.src))
        = l.map fun e => (e.image, e.selected, e.src) := by
  intro l
  induction l with
  | nil => intro k; rfl
  | cons e es ih => intro k; simp [mapWithIndex, ih]

theorem denseIds_get {l : List ImageItem} (hd : DenseIds l) (i : Nat) (h : i < l.length) :
    (l.get ⟨i, h⟩).id = i + 1 := by
  have h2 : (l.map fun e => e.id)[i]? = some ((l.get ⟨i, h⟩).id) := by
    simp [List.getElem?_eq_getElem, h]
  rw [hd, List.getElem?_range' 1 1 (by simpa using h)] at h2
  simp only [Option.some_inj] at h2
  omega

theorem countAdvances_zero_of_caught :
    ∀ (es : List VisEvent) (s : SlideshowVisState), s.hidden = true →
      s.triggeredWhileHidden = true → (∀ e ∈ es, e ≠ VisEvent.setVisible) →
      countAdvances s es = 0 := by
  intro es
  induction es with
  | nil => intro s _ _ _; rfl
  | cons e es ih =>
    intro s hh hc hn
    have hes : ∀ e ∈ es, e ≠ VisEvent.setVisible := fun e he => hn e (List.mem_cons_of_mem _ he)
    cases e with
    | tick =>
      have hadv : tickAdvances s = false := by simp [tickAdvances, hh, hc]
      have hstep : visStep s VisEvent.tick = s := by simp [visStep, hh, hc]
      simp only [countAdvances, hadv, hstep]
      simpa using ih s hh hc hes
    | setVisible => exact absurd rfl (hn _ (List.mem_cons_self _ _))
    | setHidden =>
      simp only [countAdvances, visStep]
      have := ih { s with hidden := true } rfl hc hes
      simpa using this

theorem countAdvances_le_one_hidden :
    ∀ (es : List VisEvent) (s : SlideshowVisState), s.hidden = true →
      (∀ e ∈ es, e ≠ VisEvent.setVisible) → countAdvances s es ≤ 1 := by
  intro es
  induction es with
  | nil => intro s _ _; exact Nat.zero_le 1
  | cons e es ih =>
    intro s hh hn
    have hes : ∀ e ∈ es, e ≠ VisEvent.setVisible := fun e he => hn e (List.mem_cons_of_mem _ he)
    cases e with
    | tick =>
      by_cases hc : s.triggeredWhileHidden = true
      · have hadv : tickAdvances s = false := by simp [tickAdvances, hh, hc]
        have hstep : visStep s VisEvent.tick = s := by simp [visStep, hh, hc]
        simp only [countAdvances, hadv, hstep]
        simpa using ih s hh hes
      · have hcf : s.triggeredWhileHidden = false := by
          cases hb : s.triggeredWhileHidden
          · rfl
          · exact absurd hb hc
        have hstep : visStep s VisEvent.tick = { s with triggeredWhileHidden := true } := by
          simp [visStep, hh, hcf]
        have hadv : tickAdvances s = true := by simp [tickAdvances, hh, hcf]
        have hzero := countAdvances_zero_of_caught es { s with triggeredWhileHidden := true }
          (by simpa using hh) rfl hes
        simp [countAdvances, hstep, hzero, hadv]
    | setVisible => exact absurd rfl (hn _ (List.mem_cons_self _ _))
    | setHidden =>
      simp only [countAdvances, visStep]
      have := ih { s with hidden := true } rfl hes
      simpa using this

theorem countAdvances_eq_one_hidden :
    ∀ (es : List VisEvent) (s : SlideshowVisState), s.hidden = true →
      s.triggeredWhileHidden = false → (∀ e ∈ es, e ≠ VisEvent.setVisible) →
      VisEvent.tick ∈ es → countAdvances s es = 1 := by
  intro es
  induction es with
  | nil => intro s _ _ _ hmem; exact absurd hmem (List.not_mem_nil _)
  | cons e es ih =>
    intro s hh hc hn hmem
    have hes : ∀ e ∈ es, e ≠ VisEvent.setVisible := fun e he => hn e (List.mem_cons_of_mem _ he)
    cases e with
    | tick =>
      have hadv : tickAdvances s = true := by simp [tickAdvances, hh, hc]
      have hstep : visStep s VisEvent.tick = { s with triggeredWhileHidden := true } := by
        simp [visStep, hh, hc]
      have hzero := countAdvances_zero_of_caught es { s with triggeredWhileHidden := true }
        (by simpa using hh) rfl hes
      simp [countAdvances, hadv, hstep, hzero]
    | setVisible => exact absurd rfl (hn _ (List.mem_cons_self _ _))
    | setHidden =>
      have hmem2 : VisEvent.tick ∈ es := by
        cases List.mem_cons.mp hmem with
        | inl h => exact absurd h.symm (by intro h; cases h)
        | inr h => exact h
      simp only [countAdvances, visStep]
      have := ih { s with hidden := true } rfl (by simpa using hc) hes hmem2
      simpa using this

/-- C1: starting from any store state with dense 1-based ids (the image
store's data-model invariant) in which at most one item is selected, any
sequence of completed add, remove, select, remove-background and
slideshow-tick operations leaves at most one item with `selected = true`. -/
theorem store_at_most_one_selected (ops : List StoreOp) :
    ∀ (items : List ImageItem), DenseIds items → selectedCount items ≤ 1 →
      selectedCount (runOps items ops) ≤ 1 := by
  induction ops with
  | nil =>
    intro items _ hsel
    simpa [runOps] using hsel
  | cons op ops ih =>
    intro items hWF hsel
    have h1 : selectedCount (persistOp items op) ≤ 1 := by
      rw [selectedCount_persistOp]
      exact selectedCount_applyOp_le_one items op hWF hsel
    simpa [runOps] using ih (persistOp items op) (denseIds_saveItems _) h1

/-- Witness for C1 at a concrete one-item store and an operation sequence
exercising every operation kind. -/
theorem store_at_most_one_selected_witness :
    DenseIds demoStore ∧ selectedCount demoStore ≤ 1 ∧
      selectedCount (runOps demoStore demoOps) ≤ 1 :=
  ⟨by decide, by decide, store_at_most_one_selected demoOps demoStore (by decide) (by decide)⟩

/-- C2: after any completed mutating operation and its save, the persisted
item at position `i` has `id = i + 1` (ids dense, 1-based, reassigned on
every save), and the renumbering keeps every other field and the order of
the items unchanged. -/
theorem persisted_ids_dense (items : List ImageItem) (op : StoreOp) (i : Nat)
    (h : i < (persistOp items op).length) :
    ((persistOp items op).get ⟨i, h⟩).id = i + 1 ∧
      (persistOp items op).map (fun e => (e.image, e.selected, e.src))
        = (applyOp items op).map fun e => (e.image, e.selected, e.src) :=
  ⟨denseIds_get (denseIds_saveItems (applyOp items op)) i h,
   fields_mapWithIndex_setId (applyOp items op) 0⟩

/-- Witness for C2: deleting id 2 from a four-item store leaves the item at
position 2 with id 3. -/
theorem persisted_ids_dense_witness :
    2 < (persistOp demoFourSel1 (StoreOp.remove 2)).length ∧
      ((persistOp demoFourSel1 (StoreOp.remove 2)).get ⟨2, by decide⟩).id = 2 + 1 ∧
      (persistOp demoFourSel1 (StoreOp.remove 2)).map (fun e => (e.image, e.selected, e.src))
        = (applyOp demoFourSel1 (StoreOp.remove 2)).map fun e => (e.image, e.selected, e.src) :=
  ⟨by decide, (persisted_ids_dense demoFourSel1 (StoreOp.remove 2) 2 (by decide)).1,
   (persisted_ids_dense demoFourSel1 (StoreOp.remove 2) 2 (by decide)).2⟩

/-- C3 (counterexample): `setImage(h1)` deferred as the first call, then
`setImage(h2)` while that update is pending, then the armed timer firing:
the override sink receives two updates, `[h2, h1]`, not exactly one update
with `h2` — the pending timer is not canceled. -/
theorem deferred_override_double_update :
    ovRun { originalBackground := true, pending := none }
        [OvEvent.call 1, OvEvent.call 2, OvEvent.fire] = [2, 1] ∧
      ([2, 1] : List Nat) ≠ [2] := by
  exact ⟨rfl, by decide⟩

/-- C3 (amended): for any two handles, a second `setImage` inside the
deferred-override window applies its handle to the sink immediately but does
not cancel the armed timer, which later fires with the first handle: the
sink receives `[h2, h1]` and ends on the stale `h1`. -/
theorem deferred_override_applies_then_stale (h1 h2 : Nat) :
    ovRun { originalBackground := true, pending := none }
        [OvEvent.call h1, OvEvent.call h2, OvEvent.fire] = [h2, h1] := rfl

/-- C4 (counterexample): `select(2)` on a store whose only item has id 1 and
is selected changes the state — the item's `selected` flag is cleared — so
select with a missing id is not a no-op. -/
theorem handleSelect_missing_id_changes_state :
    handleSelect 2 [{ id := 1, image := demoBlob, selected := true, src := none }]
      ≠ [{ id := 1, image := demoBlob, selected := true, src := none }] := by
  decide

/-- C4 (amended): `select(id)` with an id not present among the items fails
silently but clears every item's `selected` flag (it coincides with the
remove-background handler), leaving ids, payloads and handles unchanged; it
is a no-op only when nothing was selected. -/
theorem handleSelect_missing_id_clears_selection (index : Nat) (items : List ImageItem)
    (h : ∀ e ∈ items, e.id ≠ index) :
    handleSelect index items = handleRemove items := by
  unfold handleSelect handleRemove
  refine List.map_congr_left fun e he => ?_
  have hb : (e.id == index) = false := by simpa using h e he
  rw [hb]

/-- Witness for C4's amended statement at a concrete selected one-item store. -/
theorem handleSelect_missing_id_clears_selection_witness :
    handleSelect 2 demoStore = handleRemove demoStore :=
  handleSelect_missing_id_clears_selection 2 demoStore (by decide)

/-- C5 (counterexample): a non-empty payload whose signature matches no
supported format, under an accepted `.png` filename, is accepted by the
upload check — rejection is not decided by the signature table. -/
theorem uploadAccepts_ignores_signature :
    uploadAccepts (some [0x00]) "a.png" = true ∧ getImageType [0x00] = "" ∧
      ([0x00] : List Nat) ≠ [] :=
  ⟨by decide, by decide, by decide⟩

/-- C5 (amended): upload rejection is decided by the filename extension
allow-list and data presence alone — acceptance of present data depends only
on the filename, never on the bytes — while the signature table only
determines the stored MIME type (possibly the empty string). -/
theorem upload_rejection_extension_based :
    (∀ (d : List Nat) (fname : String),
        uploadAccepts (some d) fname = acceptedExtensions.contains (fileExtension fname)) ∧
    (∀ fname : String, uploadAccepts none fname = false) ∧
    (∀ (d : List Nat) (fname : String) (handle i : Nat),
        (processFile (some d) fname handle i).map (fun it => it.image.type)
          = if uploadAccepts (some d) fname then some (getImageType d) else none) := by
  refine ⟨fun d fname => ?_, fun fname => rfl, fun d fname handle i => ?_⟩
  · simp [uploadAccepts]
  · cases hb : uploadAccepts (some d) fname <;> simp [processFile, hb]

/-- C6: a payload starting with the JPEG signature `FF D8 FF` is stored with
MIME `image/jpeg` even under a `.png` filename; in general the item a file
yields is fully determined by its bytes (MIME from the signature table) with
the filename only gating acceptance. -/
theorem upload_stores_sniffed_mime :
    (∀ (rest : List Nat) (handle i : Nat),
        processFile (some (0xFF :: 0xD8 :: 0xFF :: rest)) "background.png" handle i
          = some { id := i + 1,
                   image := { data := 0xFF :: 0xD8 :: 0xFF :: rest, type := "image/jpeg" },
                   selected := false, src := some handle }) ∧
    (∀ rest : List Nat, getImageType (0xFF :: 0xD8 :: 0xFF :: rest) = "image/jpeg") ∧
    (∀ (d : List Nat) (fname : String) (handle i : Nat),
        processFile (some d) fname handle i
          = if uploadAccepts (some d) fname then
              some { id := i + 1, image := { data := d, type := getImageType d },
                     selected := false, src := some handle }
            else none) := by
  have hjpeg : ∀ rest : List Nat, getImageType (0xFF :: 0xD8 :: 0xFF :: rest) = "image/jpeg" :=
    fun rest => rfl
  have hchar : ∀ (d : List Nat) (fname : String) (handle i : Nat),
      processFile (some d) fname handle i
        = if uploadAccepts (some d) fname then
            some { id := i + 1, image := { data := d, type := getImageType d },
                   selected := false, src := some handle }
          else none := by
    intro d fname handle i
    cases hb : uploadAccepts (some d) fname <;> simp [processFile, hb]
  refine ⟨fun rest handle i => ?_, hjpeg, hchar⟩
  rw [hchar]
  have hacc : uploadAccepts (some (0xFF :: 0xD8 :: 0xFF :: rest)) "background.png" = true := rfl
  rw [hacc, hjpeg rest]
  simp

/-- C7: the slideshow timer period is `max(interval, 30000)` ms for every
configured interval, `30000` at a configured `1000`, the default
`max(300000, 30000)` when no interval is configured, and never below
30000 ms. -/
theorem slideShowPeriod_floor :
    (∀ v : Nat, slideShowPeriod (some v) = max v 30000) ∧
    slideShowPeriod (some 1000) = 30000 ∧
    slideShowPeriod none = max 300000 30000 ∧
    (∀ o : Option Nat, 30000 ≤ slideShowPeriod o) :=
  ⟨fun v => rfl, by decide, rfl, fun o => Nat.le_max_right _ _⟩

/-- C8: on a sequential tick over four items, a selected index advances as
claimed (1 to 2, and 3 wraps to 0), but with nothing selected the tick picks
index 1 for every random draw `r` — JavaScript evaluates `null + 1` to the
truthy `1`, so the random-start fallback in the source is dead code. -/
theorem tick_unselected_start_deterministic :
    (∀ r fresh : Nat,
        ((slideshowTick false true 0 r fresh demoFourNone).items.map fun e => e.selected)
          = [false, true, false, false]) ∧
    (∀ r fresh : Nat,
        ((slideshowTick false true 0 r fresh demoFourSel1).items.map fun e => e.selected)
          = [false, false, true, false]) ∧
    (∀ r fresh : Nat,
        ((slideshowTick false true 0 r fresh demoFourSel3).items.map fun e => e.selected)
          = [true, false, false, false]) := by
  refine ⟨fun r fresh => ?_, fun r fresh => ?_, fun r fresh => ?_⟩ <;>
    simp [slideshowTick, tickBranchResult, demoFourNone, demoFourSel1, demoFourSel3, demoBlob,
      currentSelectedIndex, currentSelectedIndexGo, jsSeqTarget, jsNullAdd1, jsOr,
      mapWithIndex, tickSeqItem_selected]

/-- C9: while the host stays hidden at most one tick advances the image;
if the catch-up flag is clear and a tick occurs, exactly one tick advances;
a tick with the flag set is a no-op on the state and does not advance; and
returning to visibility clears the flag, so the next hidden period again
gets exactly one catch-up advance. -/
theorem slideshow_hidden_single_catchup :
    (∀ (es : List VisEvent) (s : SlideshowVisState), s.hidden = true →
        (∀ e ∈ es, e ≠ VisEvent.setVisible) → countAdvances s es ≤ 1) ∧
    (∀ (es : List VisEvent) (s : SlideshowVisState), s.hidden = true →
        s.triggeredWhileHidden = false → (∀ e ∈ es, e ≠ VisEvent.setVisible) →
        VisEvent.tick ∈ es → countAdvances s es = 1) ∧
    (∀ s : SlideshowVisState, s.hidden = true → s.triggeredWhileHidden = true →
        visStep s VisEvent.tick = s ∧ tickAdvances s = false) ∧
    (∀ s : SlideshowVisState,
        visStep s VisEvent.setVisible = { hidden := false, triggeredWhileHidden := false }) := by
  refine ⟨fun es s hh hn => countAdvances_le_one_hidden es s hh hn,
    fun es s hh hc hn hm => countAdvances_eq_one_hidden es s hh hc hn hm,
    fun s hh hc => ⟨by simp [visStep, hh, hc], by simp [tickAdvances, hh, hc]⟩,
    fun s => rfl⟩

/-- Witness for C9: a hidden period with three ticks yields exactly one
advancing tick. -/
theorem slideshow_hidden_single_catchup_witness :
    countAdvances { hidden := true, triggeredWhileHidden := false }
        [VisEvent.tick, VisEvent.tick, VisEvent.setHidden, VisEvent.tick] = 1 :=
  slideshow_hidden_single_catchup.2.1
    [VisEvent.tick, VisEvent.tick, VisEvent.setHidden, VisEvent.tick]
    { hidden := true, triggeredWhileHidden := false } rfl rfl (by decide) (by decide)

/-- C10: a slideshow tick that loads zero stored items changes nothing: the
item list is unchanged, no presentation-sink update is issued, and no object
URL is created or revoked — both tick branches are skipped by their guards. -/
theorem tick_empty_store_noop (shuffle mounted : Bool) (x r fresh : Nat) :
    slideshowTick shuffle mounted x r fresh []
      = { items := [], updates := [], revoked := [], created := [] } := by
  cases shuffle <;> simp [slideshowTick]

end BackgroundManager
